import Mathlib

/-!
Verification of the event-delivery buffer client (`client.go`).

The dispatch, flush, send and retry logic is translated from `src/client.go`.
The concrete store, the options record and the raw event type are not part of
the given sources; they are modelled from the specification's Store contract
(§3, §6), configuration surface (§6) and event interface, and each such
definition is marked `Modelled from the spec:`.

External nondeterminism (transport outcomes, the clock, and exogenous
backing-store failures from the spec's `StoreFailure` taxonomy) is supplied by
an oracle record `Env`, so that every function is a pure state transformer.
-/

set_option linter.unusedVariables false

namespace Jitsuclient

/-- Modelled from the spec: a raw producer event (the `event` package is not
under `src/`); `payload` is the serialized byte sequence and `valid` records
the outcome of `Validate()`, which strict mode consults before admission. -/
structure Event where
  id : Nat
  payload : List Nat
  valid : Bool
deriving DecidableEq

/-- Modelled from the spec: a stored event wraps an event payload with
delivery bookkeeping (`attempted`, `attempts`, `lastAttempt`); `id` is the
stable identity used by update and remove. -/
structure StoreEvent where
  id : Nat
  event : List Nat
  attempted : Bool
  attempts : Nat
  lastAttempt : Nat
deriving DecidableEq

/-- Modelled from the spec: the Store is a mapping from identity to stored
event; the in-memory reference implementation is a finite sequence of
entries. -/
abbrev Store := List StoreEvent

/-- Modelled from the spec: `count()` equals the number of entries held. -/
def Store.Count (st : Store) : Nat := st.length

/-- Modelled from the spec: `getAll()` snapshots every live entry. -/
def Store.GetAll (st : Store) : List StoreEvent := st

/-- Modelled from the spec: `set` admits a brand-new entry. -/
def Store.Set (st : Store) (e : StoreEvent) : Store := st ++ [e]

/-- Modelled from the spec: `remove` deletes the entry carrying the
argument's identity; removing an absent identity is harmless. -/
def Store.Remove (st : Store) (e : StoreEvent) : Store :=
  st.filter (fun x => x.id ≠ e.id)

/-- Modelled from the spec: `update` replaces the entry carrying the
argument's identity and only succeeds when such an entry still exists. -/
def Store.Update (st : Store) (e : StoreEvent) : Option Store :=
  if st.any (fun x => x.id == e.id) then
    some (st.map (fun x => if x.id = e.id then e else x))
  else none

/-- Identities of the entries currently held. -/
def Store.ids (st : Store) : List Nat := st.map (fun e => e.id)

/-- Modelled from the spec: the configuration surface read by the dispatch,
flush and retry paths (the options record is not under `src/`). -/
structure Options where
  Strict : Bool
  Bulk : Bool
  FlushCount : Nat
  MaxRetries : Nat
  Debug : Bool
deriving DecidableEq

/-- Oracle for one flush cycle: the current time, per-identity transport
outcomes, the outcome of the single bulk request, and exogenous backing-store
failures (the spec's `StoreFailure` error class). -/
structure Env where
  now : Nat
  transportErr : Nat → Bool
  statusCode : Nat → Nat
  bulkTransportErr : Bool
  bulkStatusCode : Nat
  setFails : Nat → Bool
  updateFails : Nat → Bool
  removeFails : Nat → Bool

/-- The backing store suffers no exogenous failures, as with the in-memory
reference implementation. -/
def Env.storeOk (env : Env) : Prop :=
  (∀ i, env.setFails i = false) ∧ (∀ i, env.updateFails i = false) ∧
  (∀ i, env.removeFails i = false)

/-- Translation of `send` (client.go:263-280): POST the payload; the response
status code is inspected first and an error is returned when it exceeds 299,
otherwise the transport error (if any) is returned. The result `true` stands
for a non-nil error. -/
def send (transportErr : Bool) (statusCode : Nat) : Bool :=
  if statusCode > 299 then true else transportErr

/-- Outcome of `send` for one stored event under the oracle. -/
def sendOutcome (env : Env) (e : StoreEvent) : Bool :=
  send (env.transportErr e.id) (env.statusCode e.id)

/-- Failure classification of the single bulk request (client.go:224):
transport error or status code above 299. -/
def bulkFailed (env : Env) : Bool :=
  env.bulkTransportErr || decide (env.bulkStatusCode > 299)

/-- The bookkeeping mutation `sendFailed` applies to a failed event
(client.go:285-287). -/
def bump (now : Nat) (e : StoreEvent) : StoreEvent :=
  { e with attempted := true, attempts := e.attempts + 1, lastAttempt := now }

/-- The give-up condition of the retry policy (client.go:293), stated on the
pre-increment attempt count. -/
def giveUp (opts : Options) (e : StoreEvent) : Bool :=
  decide (0 < opts.MaxRetries ∧ opts.MaxRetries < e.attempts + 1)

/-- Result of `sendFailed`: the mutated event, the removal flag, whether an
error was returned, and the store afterwards. -/
structure SendFailedResult where
  ev : StoreEvent
  rm : Bool
  err : Bool
  store : Store
deriving DecidableEq

/-- Translation of `sendFailed` (client.go:282-302). The flag
`updateFailsHere` is the exogenous store-failure oracle for the `Update`
call; `err = true` stands for a non-nil returned error. -/
def sendFailed (opts : Options) (st : Store) (now : Nat) (updateFailsHere : Bool)
    (e : StoreEvent) : SendFailedResult :=
  let e' := bump now e
  if 0 < opts.MaxRetries ∧ opts.MaxRetries < e'.attempts then
    { ev := e', rm := true, err := false, store := st }
  else if updateFailsHere then
    { ev := e', rm := false, err := true, store := st }
  else
    match Store.Update st e' with
    | some st' => { ev := e', rm := false, err := false, store := st' }
    | none => { ev := e', rm := false, err := true, store := st }

/-- Accumulator of the per-event loops of `emit` and `emitBulk`: the store,
the success counter `i`, and the bodies of the HTTP requests issued so far. -/
structure EmitAcc where
  store : Store
  sent : Nat
  requests : List (List Nat)
deriving DecidableEq

/-- Result of `emit`: the returned counter, the store afterwards, and the
bodies of the HTTP requests issued. -/
structure EmitResult where
  sent : Nat
  store : Store
  requests : List (List Nat)
deriving DecidableEq

/-- Body of the per-event loop of `emit` (client.go:176-195) for one stored
event: issue the send, on success count and remove, on failure run the retry
policy and remove exactly when it gives up. -/
def emitStep (opts : Options) (env : Env) (acc : EmitAcc) (e : StoreEvent) : EmitAcc :=
  let acc1 : EmitAcc := { acc with requests := acc.requests ++ [e.event] }
  if sendOutcome env e = false then
    let acc2 : EmitAcc := { acc1 with sent := acc1.sent + 1 }
    if env.removeFails e.id then acc2
    else { acc2 with store := Store.Remove acc2.store e }
  else
    let r := sendFailed opts acc1.store env.now (env.updateFails e.id) e
    let acc2 : EmitAcc := { acc1 with store := r.store }
    if r.rm then
      if env.removeFails e.id then acc2
      else { acc2 with store := Store.Remove acc2.store e }
    else acc2

/-- Body of the classification loop of `emitBulk` (client.go:239-258): every
snapshotted event is classified by the one bulk outcome. -/
def emitBulkStep (opts : Options) (env : Env) (acc : EmitAcc) (e : StoreEvent) : EmitAcc :=
  if bulkFailed env then
    let r := sendFailed opts acc.store env.now (env.updateFails e.id) e
    let acc1 : EmitAcc := { acc with store := r.store }
    if r.rm then
      if env.removeFails e.id then acc1
      else { acc1 with store := Store.Remove acc1.store e }
    else acc1
  else
    let acc1 : EmitAcc := { acc with sent := acc.sent + 1 }
    if env.removeFails e.id then acc1
    else { acc1 with store := Store.Remove acc1.store e }

/-- Body of the single bulk request: the snapshotted payloads joined by a
newline byte (client.go:208-213). -/
def bulkRequestBody (st : Store) : List Nat :=
  List.intercalate [10] ((Store.GetAll st).map (fun e => e.event))

/-- Translation of `emitBulk` (client.go:200-261): one POST for the whole
snapshot, then every event is removed (success) or put through the retry
policy (failure). -/
def emitBulk (opts : Options) (env : Env) (st : Store) : EmitResult :=
  let acc := (Store.GetAll st).foldl (emitBulkStep opts env)
    { store := st, sent := 0, requests := [bulkRequestBody st] }
  { sent := acc.sent, store := acc.store, requests := acc.requests }

/-- Translation of `emit` (client.go:161-198), the body of `Flush`: no-op on
an empty store, otherwise bulk or per-event delivery over a snapshot. -/
def emit (opts : Options) (env : Env) (st : Store) : EmitResult :=
  if Store.Count st = 0 then { sent := 0, store := st, requests := [] }
  else if opts.Bulk then emitBulk opts env st
  else
    let acc := (Store.GetAll st).foldl (emitStep opts env)
      { store := st, sent := 0, requests := [] }
    { sent := acc.sent, store := acc.store, requests := acc.requests }

/-- Whether the delivery attempt carrying `e` in the configured mode failed. -/
def attemptFailed (opts : Options) (env : Env) (e : StoreEvent) : Bool :=
  if opts.Bulk then bulkFailed env else sendOutcome env e

/-- One stimulus of the dispatcher loop (client.go:135-158). -/
inductive Stimulus where
  | newEvent : Event → Stimulus
  | tick : Stimulus
  | closeSignal : Stimulus
deriving DecidableEq

/-- Modelled from the spec: admission wraps a dequeued event into a fresh
stored event with zero attempts (`store.Set`; the concrete store is not under
`src/`). -/
def mkStoredEvent (e : Event) : StoreEvent :=
  { id := e.id, event := e.payload, attempted := false, attempts := 0, lastAttempt := 0 }

/-- One iteration of the dispatcher loop `run` (client.go:131-159), returning
the store after the stimulus is processed: strict validation may drop the
event, a failed `Set` drops it, and crossing `FlushCount` or a timer tick
triggers a flush. -/
def runStep (opts : Options) (env : Env) (st : Store) (s : Stimulus) : Store :=
  match s with
  | Stimulus.newEvent e =>
      if opts.Strict ∧ e.valid = false then st
      else if env.setFails e.id then st
      else
        let st' := Store.Set st (mkStoredEvent e)
        if Store.Count st' ≥ opts.FlushCount then (emit opts env st').store else st'
  | Stimulus.tick => (emit opts env st).store
  | Stimulus.closeSignal => st

/-- The dispatcher loop over a sequence of stimuli; a close signal returns
from the loop (client.go:155-156). -/
def run (opts : Options) (env : Env) : Store → List Stimulus → Store
  | st, [] => st
  | st, Stimulus.closeSignal :: _ => st
  | st, s :: rest => run opts env (runStep opts env st s) rest

/-- State of the client as seen by `Close`: whether the `cl` channel has
already been closed, and the store. -/
structure ClientState where
  clClosed : Bool
  store : Store
deriving DecidableEq

/-- Translation of `Close` (client.go:116-120): `close(t.cl)` followed by a
final `Flush`. Go's `close` on an already-closed channel panics; `none`
models that panic. -/
def ClientClose (opts : Options) (env : Env) (c : ClientState) : Option (ClientState × Nat) :=
  if c.clClosed then none
  else
    let r := emit opts env c.store
    some ({ clClosed := true, store := r.store }, r.sent)

/-- Net effect of one flush cycle on the store entry carrying `e`'s identity:
`none` when the entry ends up removed, `some x` when it remains as `x`. -/
def eventFate (opts : Options) (env : Env) (mode : Bool) (e : StoreEvent) : Option StoreEvent :=
  let failed := if mode then bulkFailed env else sendOutcome env e
  if failed then
    if giveUp opts e then
      if env.removeFails e.id then some e else none
    else
      if env.updateFails e.id then some e else some (bump env.now e)
  else
    if env.removeFails e.id then some e else none

/-- Store component of one loop iteration of `emit` (per-event mode when
`mode = false`) and of `emitBulk` (`mode = true`). -/
def stepStore (opts : Options) (env : Env) (mode : Bool) (st : Store) (e : StoreEvent) : Store :=
  let failed := if mode then bulkFailed env else sendOutcome env e
  if failed then
    let r := sendFailed opts st env.now (env.updateFails e.id) e
    if r.rm then
      if env.removeFails e.id then r.store else Store.Remove r.store e
    else r.store
  else
    if env.removeFails e.id then st else Store.Remove st e

/-- Sample oracle: all sends succeed and the store never fails. -/
def envQuiet : Env :=
  { now := 5, transportErr := fun _ => false, statusCode := fun _ => 0,
    bulkTransportErr := false, bulkStatusCode := 0,
    setFails := fun _ => false, updateFails := fun _ => false,
    removeFails := fun _ => false }

/-- Sample oracle: every per-event send suffers a transport error. -/
def envAllFail : Env := { envQuiet with transportErr := fun _ => true }

/-- Sample oracle: the bulk request comes back with status 500. -/
def envBulkFail : Env := { envQuiet with now := 9, bulkStatusCode := 500 }

/-- Sample oracle: only the send for identity 1 fails. -/
def envMix : Env := { envQuiet with transportErr := fun i => decide (i = 1) }

/-- Sample oracle: the send for identity 1 fails, inserting identity 5 fails,
and updating identity 1 fails. -/
def envStoreFail : Env :=
  { envQuiet with
    transportErr := fun i => decide (i = 1)
    setFails := fun i => decide (i = 5)
    updateFails := fun i => decide (i = 1) }

/-- Sample configuration: unlimited retries, per-event mode. -/
def optsUnlimited : Options :=
  { Strict := false, Bulk := false, FlushCount := 10, MaxRetries := 0, Debug := false }

/-- Sample configuration: a retry budget of two attempts. -/
def optsRetry2 : Options := { optsUnlimited with MaxRetries := 2 }

/-- Sample configuration: bulk mode with a retry budget of two attempts. -/
def optsBulk2 : Options := { optsRetry2 with Bulk := true }

/-- Sample configuration: strict validation enabled. -/
def optsStrict : Options := { optsUnlimited with Strict := true }

/-- Sample configuration: a retry budget of three attempts. -/
def optsRetry3 : Options := { optsUnlimited with MaxRetries := 3 }

/-- Sample stored event: identity 1, never attempted. -/
def sevFresh : StoreEvent :=
  { id := 1, event := [7], attempted := false, attempts := 0, lastAttempt := 0 }

/-- Sample stored event: identity 2, never attempted. -/
def sevTwo : StoreEvent :=
  { id := 2, event := [8], attempted := false, attempts := 0, lastAttempt := 0 }

/-- Sample stored event: identity 1 with two failed attempts on record. -/
def sevSpent : StoreEvent :=
  { id := 1, event := [7], attempted := true, attempts := 2, lastAttempt := 3 }

/-- Sample stored event: identity 1 with one failed attempt on record. -/
def sevOnce : StoreEvent :=
  { id := 1, event := [7], attempted := true, attempts := 1, lastAttempt := 2 }

/-- Sample raw event that passes validation. -/
def evValid : Event := { id := 5, payload := [9], valid := true }

/-- Sample raw event that fails validation. -/
def evInvalid : Event := { id := 6, payload := [9], valid := false }

theorem map_id_of_mem {α : Type} (l : List α) (f : α → α) (h : ∀ x ∈ l, f x = x) :
    l.map f = l := by
  induction l with
  | nil => rfl
  | cons a l ih =>
    simp only [List.map_cons, h a (by simp)]
    rw [ih (fun x hx => h x (by simp [hx]))]

theorem filter_true_of_mem {α : Type} (l : List α) (p : α → Bool) (h : ∀ x ∈ l, p x = true) :
    l.filter p = l := by
  induction l with
  | nil => rfl
  | cons a l ih =>
    rw [List.filter_cons, if_pos (h a (by simp))]
    rw [ih (fun x hx => h x (by simp [hx]))]

theorem filterMap_congr_mem {α β : Type} (l : List α) (f g : α → Option β)
    (h : ∀ x ∈ l, f x = g x) : l.filterMap f = l.filterMap g := by
  induction l with
  | nil => rfl
  | cons a l ih =>
    rw [List.filterMap_cons, List.filterMap_cons, h a (by simp),
      ih (fun x hx => h x (by simp [hx]))]

theorem nodup_ids_inj {st : Store} (hn : (Store.ids st).Nodup) {x y : StoreEvent}
    (hx : x ∈ st) (hy : y ∈ st) (h : x.id = y.id) : x = y := by
  induction st with
  | nil => cases hx
  | cons a l ih =>
    have hn' : (Store.ids l).Nodup ∧ a.id ∉ Store.ids l := by
      have := hn
      simp only [Store.ids, List.map_cons, List.nodup_cons] at this
      exact ⟨this.2, this.1⟩
    rcases List.mem_cons.mp hx with hxa | hxl
    · rcases List.mem_cons.mp hy with hya | hyl
      · rw [hxa, hya]
      · exfalso
        apply hn'.2
        rw [hxa] at h
        rw [h]
        exact List.mem_map_of_mem _ hyl
    · rcases List.mem_cons.mp hy with hya | hyl
      · exfalso
        apply hn'.2
        rw [hya] at h
        rw [← h]
        exact List.mem_map_of_mem _ hxl
      · exact ih hn'.1 hxl hyl

theorem sendFailed_giveup (opts : Options) (st : Store) (now : Nat) (uf : Bool)
    (e : StoreEvent) (h : giveUp opts e = true) :
    sendFailed opts st now uf e =
      { ev := bump now e, rm := true, err := false, store := st } := by
  have h' : 0 < opts.MaxRetries ∧ opts.MaxRetries < (bump now e).attempts :=
    of_decide_eq_true h
  unfold sendFailed
  rw [if_pos h']

theorem sendFailed_retry_updateFails (opts : Options) (st : Store) (now : Nat)
    (e : StoreEvent) (h : giveUp opts e = false) :
    sendFailed opts st now true e =
      { ev := bump now e, rm := false, err := true, store := st } := by
  have h' : ¬ (0 < opts.MaxRetries ∧ opts.MaxRetries < (bump now e).attempts) :=
    of_decide_eq_false h
  unfold sendFailed
  rw [if_neg h', if_pos rfl]

theorem sendFailed_retry_update (opts : Options) (st : Store) (now : Nat)
    (e : StoreEvent) (h : giveUp opts e = false) (hm : e.id ∈ Store.ids st) :
    sendFailed opts st now false e =
      { ev := bump now e, rm := false, err := false,
        store := st.map (fun x => if x.id = e.id then bump now e else x) } := by
  have h' : ¬ (0 < opts.MaxRetries ∧ opts.MaxRetries < (bump now e).attempts) :=
    of_decide_eq_false h
  have hany : st.any (fun x => x.id == (bump now e).id) = true := by
    rcases List.mem_map.mp hm with ⟨y, hy, hid⟩
    exact List.any_eq_true.mpr ⟨y, hy, by simp [bump, hid]⟩
  unfold sendFailed
  rw [if_neg h', if_neg (by simp : ¬ (false = true))]
  unfold Store.Update
  rw [if_pos hany]
  rfl

theorem sendFailed_retry_noUpdate (opts : Options) (st : Store) (now : Nat)
    (e : StoreEvent) (h : giveUp opts e = false) (hm : e.id ∉ Store.ids st) :
    sendFailed opts st now false e =
      { ev := bump now e, rm := false, err := true, store := st } := by
  have h' : ¬ (0 < opts.MaxRetries ∧ opts.MaxRetries < (bump now e).attempts) :=
    of_decide_eq_false h
  have hany : ¬ st.any (fun x => x.id == (bump now e).id) = true := by
    intro hc
    rcases List.any_eq_true.mp hc with ⟨y, hy, hid⟩
    exact hm (List.mem_map.mpr ⟨y, hy, by simpa [bump] using hid⟩)
  unfold sendFailed
  rw [if_neg h', if_neg (by simp : ¬ (false = true))]
  unfold Store.Update
  rw [if_neg hany]

theorem sendFailed_rm_eq (opts : Options) (st : Store) (now : Nat) (uf : Bool)
    (e : StoreEvent) : (sendFailed opts st now uf e).rm = giveUp opts e := by
  cases h : giveUp opts e
  · cases huf : uf
    · by_cases hm : e.id ∈ Store.ids st
      · rw [sendFailed_retry_update opts st now e h hm]
      · rw [sendFailed_retry_noUpdate opts st now e h hm]
    · rw [sendFailed_retry_updateFails opts st now e h]
  · rw [sendFailed_giveup opts st now uf e h]

theorem Remove_shape (pre s' : List StoreEvent) (e : StoreEvent)
    (hpre : ∀ x ∈ pre, x.id ≠ e.id) (hs : ∀ x ∈ s', x.id ≠ e.id) :
    Store.Remove (pre ++ e :: s') e = pre ++ s' := by
  unfold Store.Remove
  rw [List.filter_append, List.filter_cons]
  rw [filter_true_of_mem pre _ (fun x hx => by simpa using hpre x hx)]
  rw [filter_true_of_mem s' _ (fun x hx => by simpa using hs x hx)]
  simp

theorem replace_shape (pre s' : List StoreEvent) (e e' : StoreEvent)
    (hpre : ∀ x ∈ pre, x.id ≠ e.id) (hs : ∀ x ∈ s', x.id ≠ e.id) :
    (pre ++ e :: s').map (fun x => if x.id = e.id then e' else x) = pre ++ e' :: s' := by
  rw [List.map_append, List.map_cons, if_pos rfl]
  rw [map_id_of_mem pre _ (fun x hx => if_neg (hpre x hx))]
  rw [map_id_of_mem s' _ (fun x hx => if_neg (hs x hx))]

theorem fate_id (opts : Options) (env : Env) (mode : Bool) (e x : StoreEvent)
    (h : eventFate opts env mode e = some x) : x.id = e.id := by
  unfold eventFate at h
  cases hf2 : (if mode = true then bulkFailed env else sendOutcome env e) <;>
    cases hg : giveUp opts e <;>
      cases hrf : env.removeFails e.id <;>
        cases huf : env.updateFails e.id <;>
          simp [hf2, hg, hrf, huf] at h <;>
            (try subst h) <;> simp [bump]

theorem emitStep_eq (opts : Options) (env : Env) (acc : EmitAcc) (e : StoreEvent) :
    emitStep opts env acc e =
      { store := stepStore opts env false acc.store e,
        sent := acc.sent + (if sendOutcome env e = false then 1 else 0),
        requests := acc.requests ++ [e.event] } := by
  unfold emitStep stepStore
  cases hso : sendOutcome env e
  · by_cases hrf : env.removeFails e.id <;> simp [hso, hrf]
  · by_cases hrf : env.removeFails e.id <;>
      cases hrm : (sendFailed opts acc.store env.now (env.updateFails e.id) e).rm <;>
      simp [hso, hrf, hrm]

theorem emitBulkStep_eq (opts : Options) (env : Env) (acc : EmitAcc) (e : StoreEvent) :
    emitBulkStep opts env acc e =
      { store := stepStore opts env true acc.store e,
        sent := acc.sent + (if bulkFailed env = true then 0 else 1),
        requests := acc.requests } := by
  unfold emitBulkStep stepStore
  cases hbf : bulkFailed env
  · by_cases hrf : env.removeFails e.id <;> simp [hbf, hrf]
  · by_cases hrf : env.removeFails e.id <;>
      cases hrm : (sendFailed opts acc.store env.now (env.updateFails e.id) e).rm <;>
      simp [hbf, hrf, hrm]

theorem stepStore_shape (opts : Options) (env : Env) (mode : Bool)
    (pre s' : List StoreEvent) (e : StoreEvent)
    (hpre : ∀ x ∈ pre, x.id ≠ e.id) (hs : ∀ x ∈ s', x.id ≠ e.id) :
    stepStore opts env mode (pre ++ e :: s') e =
      pre ++ ((eventFate opts env mode e).toList ++ s') := by
  have hrr := Remove_shape pre s' e hpre hs
  unfold stepStore eventFate
  cases hf2 : (if mode = true then bulkFailed env else sendOutcome env e)
  · cases hrf : env.removeFails e.id <;> simp [hf2, hrf, hrr]
  · cases hg : giveUp opts e
    · cases huf : env.updateFails e.id
      · have hm : e.id ∈ Store.ids (pre ++ e :: s') :=
          List.mem_map_of_mem _ (by simp)
        have hupd := sendFailed_retry_update opts (pre ++ e :: s') env.now e hg hm
        have hrep := replace_shape pre s' e (bump env.now e) hpre hs
        simp [hf2, hg, huf, hupd, hrep]
      · have hupd := sendFailed_retry_updateFails opts (pre ++ e :: s') env.now e hg
        simp [hf2, hg, huf, hupd]
    · have hgup :=
        sendFailed_giveup opts (pre ++ e :: s') env.now (env.updateFails e.id) e hg
      cases hrf : env.removeFails e.id <;> simp [hf2, hg, hrf, hgup, hrr]

theorem foldl_emitStep (opts : Options) (env : Env) (s : List StoreEvent) :
    ∀ acc : EmitAcc,
    s.foldl (emitStep opts env) acc =
      { store := s.foldl (stepStore opts env false) acc.store,
        sent := acc.sent + (s.filter (fun e => sendOutcome env e = false)).length,
        requests := acc.requests ++ s.map (fun e => e.event) } := by
  induction s with
  | nil => intro acc; simp
  | cons e s' ih =>
    intro acc
    rw [List.foldl_cons, emitStep_eq, ih, List.foldl_cons]
    cases hso : sendOutcome env e <;> simp [List.filter_cons, hso] <;> omega

theorem foldl_emitBulkStep (opts : Options) (env : Env) (s : List StoreEvent) :
    ∀ acc : EmitAcc,
    s.foldl (emitBulkStep opts env) acc =
      { store := s.foldl (stepStore opts env true) acc.store,
        sent := acc.sent + (if bulkFailed env = true then 0 else s.length),
        requests := acc.requests } := by
  induction s with
  | nil => intro acc; simp
  | cons e s' ih =>
    intro acc
    rw [List.foldl_cons, emitBulkStep_eq, ih, List.foldl_cons]
    cases hbf : bulkFailed env <;> simp [hbf] <;> omega

theorem foldl_stepStore_fate (opts : Options) (env : Env) (mode : Bool) :
    ∀ (s pre : List StoreEvent),
    (∀ x ∈ pre, ∀ f ∈ s, x.id ≠ f.id) → (Store.ids s).Nodup →
    s.foldl (stepStore opts env mode) (pre ++ s) =
      pre ++ s.filterMap (eventFate opts env mode) := by
  intro s
  induction s with
  | nil => intro pre hd hn; simp
  | cons e s' ih =>
    intro pre hd hn
    have hpre : ∀ x ∈ pre, x.id ≠ e.id := fun x hx => hd x hx e (by simp)
    have hnodup : (Store.ids s').Nodup ∧ e.id ∉ Store.ids s' := by
      have h := hn
      simp only [Store.ids, List.map_cons, List.nodup_cons] at h
      exact ⟨h.2, h.1⟩
    have hs : ∀ x ∈ s', x.id ≠ e.id := by
      intro x hx hEq
      exact hnodup.2 (hEq ▸ List.mem_map_of_mem _ hx)
    rw [List.foldl_cons, stepStore_shape opts env mode pre s' e hpre hs,
      ← List.append_assoc]
    have hd' : ∀ x ∈ pre ++ (eventFate opts env mode e).toList, ∀ f ∈ s', x.id ≠ f.id := by
      intro x hx f hf
      rcases List.mem_append.mp hx with h1 | h2
      · exact hd x h1 f (by simp [hf])
      · have hxid : x.id = e.id := by
          cases hfa : eventFate opts env mode e with
          | none => rw [hfa] at h2; cases h2
          | some y =>
            rw [hfa] at h2
            have hxy : x = y := by simpa using h2
            rw [hxy]
            exact fate_id opts env mode e y hfa
        rw [hxid]
        intro hc
        exact hs f hf hc.symm
    rw [ih (pre ++ (eventFate opts env mode e).toList) hd' hnodup.1,
      List.filterMap_cons]
    cases hfa : eventFate opts env mode e <;> simp [hfa]

theorem emit_spec_perEvent (opts : Options) (env : Env) (st : Store)
    (hb : opts.Bulk = false) (hn : (Store.ids st).Nodup) :
    emit opts env st =
      { sent := (st.filter (fun e => sendOutcome env e = false)).length,
        store := st.filterMap (eventFate opts env false),
        requests := st.map (fun e => e.event) } := by
  by_cases h0 : Store.Count st = 0
  · have hst : st = [] := List.length_eq_zero.mp h0
    subst hst
    simp [emit, Store.Count]
  · have hfold := foldl_stepStore_fate opts env false st [] (by simp) hn
    rw [List.nil_append] at hfold
    unfold emit
    rw [if_neg h0, if_neg (by simp [hb])]
    rw [foldl_emitStep]
    simp only [Store.GetAll, hfold, List.nil_append, Nat.zero_add]

theorem emit_spec_bulk (opts : Options) (env : Env) (st : Store)
    (hb : opts.Bulk = true) (hn : (Store.ids st).Nodup) (hne : st ≠ []) :
    emit opts env st =
      { sent := if bulkFailed env = true then 0 else st.length,
        store := st.filterMap (eventFate opts env true),
        requests := [bulkRequestBody st] } := by
  have h0 : ¬ Store.Count st = 0 := by
    simpa [Store.Count, List.length_eq_zero] using hne
  have hfold := foldl_stepStore_fate opts env true st [] (by simp) hn
  rw [List.nil_append] at hfold
  unfold emit
  rw [if_neg h0, if_pos hb]
  unfold emitBulk
  rw [foldl_emitBulkStep]
  simp only [Store.GetAll, hfold, List.nil_append, Nat.zero_add]

theorem sendFailed_ev (opts : Options) (st : Store) (now : Nat) (uf : Bool)
    (e : StoreEvent) : (sendFailed opts st now uf e).ev = bump now e := by
  unfold sendFailed
  by_cases hc : 0 < opts.MaxRetries ∧ opts.MaxRetries < (bump now e).attempts
  · simp [hc]
  · cases huf : uf <;> cases hup : Store.Update st (bump now e) <;> simp [hc, huf, hup]

theorem emit_store_eq (opts : Options) (env : Env) (st : Store)
    (hn : (Store.ids st).Nodup) :
    (emit opts env st).store = st.filterMap (eventFate opts env opts.Bulk) := by
  cases hb : opts.Bulk
  · rw [emit_spec_perEvent opts env st hb hn]
  · by_cases hne : st = []
    · subst hne
      simp [emit, Store.Count]
    · rw [emit_spec_bulk opts env st hb hn hne]

theorem eventFate_ok (opts : Options) (env : Env) (mode : Bool) (e : StoreEvent)
    (huf : env.updateFails e.id = false) (hrf : env.removeFails e.id = false) :
    eventFate opts env mode e =
      if (if mode = true then bulkFailed env else sendOutcome env e) = true then
        (if giveUp opts e = true then none else some (bump env.now e))
      else none := by
  unfold eventFate
  simp [huf, hrf]

/-- C1: for every failed send of a stored event `e`, the retry policy
`sendFailed` sets `attempted` to true, increments `attempts` by exactly one
and stamps `lastAttempt` with the current time; it gives up exactly when
`MaxRetries > 0` and the incremented count exceeds `MaxRetries` (in which
case it leaves the store to its caller, who removes the event), and
otherwise persists the updated event back into the store via update; when
`MaxRetries = 0` it never gives up, whatever the attempt count. -/
theorem sendFailed_retry_policy (opts : Options) (st : Store) (now : Nat)
    (uf : Bool) (e : StoreEvent) :
    ((sendFailed opts st now uf e).ev.attempted = true ∧
      (sendFailed opts st now uf e).ev.attempts = e.attempts + 1 ∧
      (sendFailed opts st now uf e).ev.lastAttempt = now) ∧
    ((sendFailed opts st now uf e).rm = true ↔
      (0 < opts.MaxRetries ∧ opts.MaxRetries < e.attempts + 1)) ∧
    (opts.MaxRetries = 0 → (sendFailed opts st now uf e).rm = false) ∧
    ((sendFailed opts st now uf e).rm = true →
      (sendFailed opts st now uf e).store = st) ∧
    ((sendFailed opts st now uf e).rm = false → uf = false → e.id ∈ Store.ids st →
      (sendFailed opts st now uf e).store =
        st.map (fun x => if x.id = e.id then bump now e else x)) := by
  have hev := sendFailed_ev opts st now uf e
  have hrm := sendFailed_rm_eq opts st now uf e
  refine ⟨⟨by simp [hev, bump], by simp [hev, bump], by simp [hev, bump]⟩, ?_, ?_, ?_, ?_⟩
  · rw [hrm]
    unfold giveUp
    exact decide_eq_true_iff
  · intro h0
    rw [hrm]
    unfold giveUp
    simp [h0]
  · intro hrmT
    have hg : giveUp opts e = true := by rw [← hrm]; exact hrmT
    rw [sendFailed_giveup opts st now uf e hg]
  · intro hrmF hufF hm
    have hg : giveUp opts e = false := by rw [← hrm]; exact hrmF
    subst hufF
    rw [sendFailed_retry_update opts st now e hg hm]

/-- Witness for C1: a fresh event under unlimited retries is kept and its
incremented bookkeeping is persisted. -/
theorem sendFailed_retry_policy_witness :
    (sendFailed optsUnlimited [sevFresh] 5 false sevFresh).rm = false ∧
    (sendFailed optsUnlimited [sevFresh] 5 false sevFresh).store = [bump 5 sevFresh] := by
  have h := sendFailed_retry_policy optsUnlimited [sevFresh] 5 false sevFresh
  have hrm : (sendFailed optsUnlimited [sevFresh] 5 false sevFresh).rm = false :=
    h.2.2.1 rfl
  refine ⟨hrm, ?_⟩
  have hst := h.2.2.2.2 hrm rfl (by decide)
  rw [hst]
  decide

/-- C2: with a positive retry budget, every entry still in the store after a
flush carries an attempts count of at most `MaxRetries`, and an event whose
failed attempt pushes its count past `MaxRetries` is absent from the store
immediately after that flush. -/
theorem emit_retry_budget (opts : Options) (env : Env) (st : Store)
    (e : StoreEvent) (hM : 0 < opts.MaxRetries) (hok : Env.storeOk env)
    (hn : (Store.ids st).Nodup) :
    (∀ x ∈ (emit opts env st).store, x.attempts ≤ opts.MaxRetries) ∧
    (e ∈ st → attemptFailed opts env e = true → opts.MaxRetries < e.attempts + 1 →
      e.id ∉ Store.ids (emit opts env st).store) := by
  constructor
  · intro x hx
    rw [emit_store_eq opts env st hn] at hx
    rcases List.mem_filterMap.mp hx with ⟨a, ha, hfa⟩
    rw [eventFate_ok opts env opts.Bulk a (hok.2.1 a.id) (hok.2.2 a.id)] at hfa
    by_cases hf2 : (if opts.Bulk = true then bulkFailed env else sendOutcome env a) = true
    · rw [if_pos hf2] at hfa
      by_cases hg : giveUp opts a = true
      · rw [if_pos hg] at hfa
        cases hfa
      · rw [if_neg hg] at hfa
        have hx2 : bump env.now a = x := Option.some.inj hfa
        have hga : ¬ (0 < opts.MaxRetries ∧ opts.MaxRetries < a.attempts + 1) := by
          apply of_decide_eq_false
          simpa [giveUp] using hg
        have hle : a.attempts + 1 ≤ opts.MaxRetries := by
          rcases Nat.lt_or_ge opts.MaxRetries (a.attempts + 1) with hlt | hge
          · exact absurd ⟨hM, hlt⟩ hga
          · exact hge
        rw [← hx2]
        simpa [bump] using hle
    · rw [if_neg hf2] at hfa
      cases hfa
  · intro he hfail hexc hmem
    rw [emit_store_eq opts env st hn] at hmem
    rcases List.mem_map.mp hmem with ⟨x, hx, hxid⟩
    rcases List.mem_filterMap.mp hx with ⟨a, ha, hfa⟩
    have hae : a = e := by
      apply nodup_ids_inj hn ha he
      rw [← fate_id opts env opts.Bulk a x hfa, hxid]
    rw [hae] at hfa
    rw [eventFate_ok opts env opts.Bulk e (hok.2.1 e.id) (hok.2.2 e.id)] at hfa
    have hfail' : (if opts.Bulk = true then bulkFailed env else sendOutcome env e) = true :=
      hfail
    have hgE : giveUp opts e = true := decide_eq_true ⟨hM, hexc⟩
    rw [if_pos hfail', if_pos hgE] at hfa
    cases hfa

/-- Witness for C2: an event at the retry budget fails once more and is gone
from the store right after the flush. -/
theorem emit_retry_budget_witness :
    sevSpent.id ∉ Store.ids (emit optsRetry2 envAllFail [sevSpent]).store := by
  have h := emit_retry_budget optsRetry2 envAllFail [sevSpent] sevSpent (by decide)
    ⟨fun _ => rfl, fun _ => rfl, fun _ => rfl⟩ (by decide)
  exact h.2 (by decide) rfl (by decide)

/-- C3: in bulk mode a single request is issued whose body is the joined
snapshot, and all snapshotted events are classified identically — on success
(no transport error and status at most 299) every event is removed, and on
failure every event receives exactly one attempts increment through the
retry policy, those exceeding the budget being dropped. -/
theorem emitBulk_all_or_nothing (opts : Options) (env : Env) (st : Store)
    (hb : opts.Bulk = true) (hok : Env.storeOk env) (hn : (Store.ids st).Nodup)
    (hne : st ≠ []) :
    (emit opts env st).requests = [bulkRequestBody st] ∧
    (bulkFailed env = false →
      (emit opts env st).store = [] ∧ (emit opts env st).sent = st.length) ∧
    (bulkFailed env = true →
      (emit opts env st).sent = 0 ∧
      (emit opts env st).store =
        st.filterMap (fun e =>
          if giveUp opts e = true then none else some (bump env.now e))) := by
  have hspec := emit_spec_bulk opts env st hb hn hne
  refine ⟨by rw [hspec], ?_, ?_⟩
  · intro hbf
    constructor
    · rw [hspec]
      apply List.filterMap_eq_nil.mpr
      intro a ha
      rw [eventFate_ok opts env true a (hok.2.1 a.id) (hok.2.2 a.id)]
      simp [hbf]
    · rw [hspec]
      simp [hbf]
  · intro hbf
    constructor
    · rw [hspec]
      simp [hbf]
    · rw [hspec]
      apply filterMap_congr_mem
      intro a ha
      rw [eventFate_ok opts env true a (hok.2.1 a.id) (hok.2.2 a.id)]
      simp [hbf]

/-- Witness for C3: a failed bulk request over two events drops the one past
its budget and bumps the other by exactly one. -/
theorem emitBulk_all_or_nothing_witness :
    (emit optsBulk2 envBulkFail [sevSpent, sevTwo]).requests =
      [bulkRequestBody [sevSpent, sevTwo]] ∧
    (emit optsBulk2 envBulkFail [sevSpent, sevTwo]).sent = 0 ∧
    (emit optsBulk2 envBulkFail [sevSpent, sevTwo]).store = [bump 9 sevTwo] := by
  have h := emitBulk_all_or_nothing optsBulk2 envBulkFail [sevSpent, sevTwo] rfl
    ⟨fun _ => rfl, fun _ => rfl, fun _ => rfl⟩ (by decide) (by decide)
  refine ⟨h.1, (h.2.2 rfl).1, ?_⟩
  rw [(h.2.2 rfl).2]
  decide

/-- C4: `emit` (the body of `flush`) returns exactly the number of events
removed through confirmed delivery — in per-event mode the number of
snapshotted events whose send succeeded, each of which is absent from the
store afterwards; in bulk mode the whole snapshot on success (store emptied)
and zero on failure. -/
theorem emit_sent_counts_delivered (opts : Options) (env : Env) (st : Store)
    (hok : Env.storeOk env) (hn : (Store.ids st).Nodup) :
    (opts.Bulk = false →
      (emit opts env st).sent =
        (st.filter (fun e => sendOutcome env e = false)).length ∧
      (∀ e ∈ st, sendOutcome env e = false →
        e.id ∉ Store.ids (emit opts env st).store)) ∧
    (opts.Bulk = true → st ≠ [] →
      (bulkFailed env = false →
        (emit opts env st).sent = st.length ∧ (emit opts env st).store = []) ∧
      (bulkFailed env = true → (emit opts env st).sent = 0)) := by
  constructor
  · intro hb
    have hspec := emit_spec_perEvent opts env st hb hn
    refine ⟨by rw [hspec], ?_⟩
    intro e he hsucc hmem
    rw [hspec] at hmem
    rcases List.mem_map.mp hmem with ⟨x, hx, hxid⟩
    rcases List.mem_filterMap.mp hx with ⟨a, ha, hfa⟩
    have hae : a = e := by
      apply nodup_ids_inj hn ha he
      rw [← fate_id opts env false a x hfa, hxid]
    rw [hae] at hfa
    rw [eventFate_ok opts env false e (hok.2.1 e.id) (hok.2.2 e.id)] at hfa
    simp [hsucc] at hfa
  · intro hb hne
    have hspec := emit_spec_bulk opts env st hb hn hne
    constructor
    · intro hbf
      constructor
      · rw [hspec]
        simp [hbf]
      · rw [hspec]
        apply List.filterMap_eq_nil.mpr
        intro a ha
        rw [eventFate_ok opts env true a (hok.2.1 a.id) (hok.2.2 a.id)]
        simp [hbf]
    · intro hbf
      rw [hspec]
      simp [hbf]

/-- Witness for C4: with one failing and one succeeding event the flush
reports one delivery and the delivered identity is gone. -/
theorem emit_sent_counts_delivered_witness :
    (emit optsRetry2 envMix [sevFresh, sevTwo]).sent = 1 ∧
    sevTwo.id ∉ Store.ids (emit optsRetry2 envMix [sevFresh, sevTwo]).store := by
  have h := emit_sent_counts_delivered optsRetry2 envMix [sevFresh, sevTwo]
    ⟨fun _ => rfl, fun _ => rfl, fun _ => rfl⟩ (by decide)
  refine ⟨?_, (h.1 rfl).2 sevTwo (by decide) rfl⟩
  rw [(h.1 rfl).1]
  decide

/-- C5: `send` reports an error exactly when the transport errs or the
response status code exceeds 299 — for every status value the (possibly
invalid) response object may carry, since the status is inspected before the
transport error. -/
theorem send_error_iff (transportErr : Bool) (statusCode : Nat) :
    send transportErr statusCode = true ↔
      (transportErr = true ∨ 299 < statusCode) := by
  unfold send
  by_cases h : statusCode > 299 <;> simp [h]

/-- C6: with strict validation enabled, a dequeued event that fails
validation is discarded before insertion — the store is untouched, `getAll`
and `count` are unchanged, the event is never retried — and the dispatcher
loop carries on with the remaining stimuli. -/
theorem strict_validation_discard (opts : Options) (env : Env) (st : Store)
    (e : Event) (rest : List Stimulus) (hstrict : opts.Strict = true)
    (hv : e.valid = false) :
    runStep opts env st (Stimulus.newEvent e) = st ∧
    Store.GetAll (runStep opts env st (Stimulus.newEvent e)) = Store.GetAll st ∧
    Store.Count (runStep opts env st (Stimulus.newEvent e)) = Store.Count st ∧
    run opts env st (Stimulus.newEvent e :: rest) = run opts env st rest := by
  have hdrop : runStep opts env st (Stimulus.newEvent e) = st := by
    simp only [runStep]
    rw [if_pos ⟨hstrict, hv⟩]
  refine ⟨hdrop, by rw [hdrop], by rw [hdrop], ?_⟩
  show run opts env (runStep opts env st (Stimulus.newEvent e)) rest =
    run opts env st rest
  rw [hdrop]

/-- Witness for C6: an invalid event under strict mode leaves a singleton
store alone and the loop proceeds as if the stimulus never happened. -/
theorem strict_validation_discard_witness :
    runStep optsStrict envQuiet [sevFresh] (Stimulus.newEvent evInvalid) = [sevFresh] ∧
    run optsStrict envQuiet [sevFresh] [Stimulus.newEvent evInvalid] =
      run optsStrict envQuiet [sevFresh] [] := by
  have h := strict_validation_discard optsStrict envQuiet [sevFresh] evInvalid []
    rfl rfl
  exact ⟨h.1, h.2.2.2⟩

/-- C7: store failures are handled locally and do not corrupt the store — a
failed insert of a brand-new dequeued event drops that event and leaves the
store exactly as it was, and a failed update of an existing entry during
retry handling leaves that entry present in the store (it is not removed,
only skipped for this cycle). -/
theorem store_failure_local_handling (opts : Options) (env : Env) (st : Store)
    (e : Event) (se : StoreEvent) :
    (e.valid = true → env.setFails e.id = true →
      runStep opts env st (Stimulus.newEvent e) = st) ∧
    (se ∈ st → (Store.ids st).Nodup → attemptFailed opts env se = true →
      env.updateFails se.id = true → giveUp opts se = false →
      se ∈ (emit opts env st).store) := by
  constructor
  · intro hv hsf
    simp only [runStep]
    rw [if_neg (by simp [hv]), if_pos hsf]
  · intro hse hn hfail huf hg
    rw [emit_store_eq opts env st hn]
    apply List.mem_filterMap.mpr
    refine ⟨se, hse, ?_⟩
    have hfail' : (if opts.Bulk = true then bulkFailed env else sendOutcome env se) = true :=
      hfail
    unfold eventFate
    rw [if_pos hfail', if_neg (by simp [hg]), if_pos huf]

/-- Witness for C7: a failed insert keeps the store at `[sevOnce]`, and a
failed update during retry handling keeps `sevOnce` in the store. -/
theorem store_failure_local_handling_witness :
    runStep optsRetry3 envStoreFail [sevOnce] (Stimulus.newEvent evValid) = [sevOnce] ∧
    sevOnce ∈ (emit optsRetry3 envStoreFail [sevOnce]).store := by
  have h := store_failure_local_handling optsRetry3 envStoreFail [sevOnce] evValid sevOnce
  exact ⟨h.1 rfl rfl, h.2 (by decide) (by decide) rfl rfl (by decide)⟩

/-- C8: with an empty store `emit` (the body of `flush`) is a no-op — it
returns zero, issues no request, and leaves the store unchanged. -/
theorem emit_empty_noop (opts : Options) (env : Env) (st : Store)
    (h : Store.Count st = 0) :
    emit opts env st = { sent := 0, store := st, requests := [] } := by
  unfold emit
  rw [if_pos h]

/-- Witness for C8 at the empty store. -/
theorem emit_empty_noop_witness :
    emit optsRetry2 envQuiet [] = { sent := 0, store := [], requests := [] } :=
  emit_empty_noop optsRetry2 envQuiet [] rfl

/-- C10: `Close` is not idempotent — a first call on an open client succeeds
and marks the channel closed, after which a second call closes an
already-closed channel and panics (modelled as `none`). -/
theorem close_not_idempotent (opts : Options) (env : Env) (c : ClientState)
    (h : c.clClosed = false) :
    ∃ c' n, ClientClose opts env c = some (c', n) ∧ c'.clClosed = true ∧
      ClientClose opts env c' = none := by
  refine ⟨{ clClosed := true, store := (emit opts env c.store).store },
    (emit opts env c.store).sent, ?_, rfl, ?_⟩
  · unfold ClientClose
    rw [if_neg (by simp [h])]
  · unfold ClientClose
    rw [if_pos rfl]

/-- Witness for C10 at a concrete open client. -/
theorem close_not_idempotent_witness :
    ∃ c' n, ClientClose optsRetry2 envQuiet { clClosed := false, store := [] } =
        some (c', n) ∧ c'.clClosed = true ∧
      ClientClose optsRetry2 envQuiet c' = none :=
  close_not_idempotent optsRetry2 envQuiet { clClosed := false, store := [] } rfl

end Jitsuclient
